import Mathlib

/-!
Verification of the QA-project-app analysis core against its specification.

The Python sources are shallowly embedded below:
* `agent_service.py` — `EnhancedCodeAnalyzer` (URL extraction, step parsing,
  framework detection, filename normalization, complexity score,
  `analyze_code`), `DynamicPlaywrightGenerator`, and the `process_workflow`
  stage loop;
* `backend/app/runner.py` — `RunManager` (`start_run`, `cancel_run`,
  `_process_agent_event`);
* `backend/app/models.py` — the `Run`/`AgentState`/`Coverage` data model.

The analyzer is regular-expression driven, so the embedding begins with a
small backtracking matcher covering exactly the regex constructs those
patterns use (literals, character classes, greedy `*`/`+` over a class, an
optional literal, and an alternation of literal strings), with Python
`re.search`/`re.findall` semantics (leftmost match, greedy with backtracking,
non-overlapping findall).
-/

namespace QA

/-- One element of a regular expression, covering exactly the constructs used
by the patterns in `agent_service.py`: a literal character, a character class
`[...]`/`[^...]`, greedy star/plus of a character class (capturing `g*` and
non-capturing variants), an optional literal character (`s?`), and a capturing
alternation of literal strings (`(a|b|c)`).  Python's `.` is the negated
class `[^\n]` (no `DOTALL` flag is used in the source). -/
inductive RItem where
  | lit (c : Char)
  | cls (cs : List Char) (neg : Bool)
  | star (cs : List Char) (neg : Bool)
  | plus (cs : List Char) (neg : Bool)
  | opt (c : Char)
  | gplus (cs : List Char) (neg : Bool)
  | gstar (cs : List Char) (neg : Bool)
  | galt (alts : List (List Char))
deriving Repr, DecidableEq

def inCls (cs : List Char) (neg : Bool) (c : Char) : Bool :=
  if neg then !(cs.contains c) else cs.contains c

/-- Length of the maximal prefix of `s` whose characters all lie in the class. -/
def runLen (cs : List Char) (neg : Bool) : List Char → Nat
  | [] => 0
  | c :: rest => if inCls cs neg c then runLen cs neg rest + 1 else 0

/-- Greedy backtracking for a starred class: try consuming `k` characters,
then `k-1`, ..., down to `0` (longest first, as Python's greedy `*`). -/
def tryPrefixes (f : List Char → List Char → Option α) : Nat → List Char → Option α
  | 0, s => f [] s
  | k+1, s =>
    match f (s.take (k+1)) (s.drop (k+1)) with
    | some r => some r
    | none => tryPrefixes f k s

/-- Like `tryPrefixes` but requires at least one character (Python's greedy `+`). -/
def tryPrefixes1 (f : List Char → List Char → Option α) : Nat → List Char → Option α
  | 0, _ => none
  | k+1, s =>
    match f (s.take (k+1)) (s.drop (k+1)) with
    | some r => some r
    | none => tryPrefixes1 f k s

/-- Alternation of literal strings, tried left to right with backtracking. -/
def tryAlts (f : List Char → List Char → Option α) : List (List Char) → List Char → Option α
  | [], _ => none
  | a :: as, s =>
    if a.isPrefixOf s then
      match f a (s.drop a.length) with
      | some r => some r
      | none => tryAlts f as s
    else tryAlts f as s

/-- Backtracking matcher for a sequence of items, anchored at the start of `s`.
Returns `(captures in group order, matched text, remainder)`.  The `fuel`
argument only bounds the recursion over `items` (every recursive call is on the
tail of `items`), so `items.length + 1` is always enough; it exists to make the
recursion structural and hence kernel-reducible. -/
def matchSeqF : Nat → List RItem → List Char → Option (List (List Char) × List Char × List Char)
  | 0, _, _ => none
  | _+1, [], s => some ([], [], s)
  | fl+1, .lit c :: rest, s =>
    match s with
    | [] => none
    | c' :: s' =>
      if c' = c then (matchSeqF fl rest s').map (fun (cs, m, r) => (cs, c' :: m, r)) else none
  | fl+1, .cls cc neg :: rest, s =>
    match s with
    | [] => none
    | c' :: s' =>
      if inCls cc neg c' then (matchSeqF fl rest s').map (fun (cs, m, r) => (cs, c' :: m, r))
      else none
  | fl+1, .opt c :: rest, s =>
    match s with
    | c' :: s' =>
      if c' = c then
        match (matchSeqF fl rest s').map (fun (cs, m, r) => (cs, c' :: m, r)) with
        | some res => some res
        | none => matchSeqF fl rest s
      else matchSeqF fl rest s
    | [] => matchSeqF fl rest []
  | fl+1, .star cc neg :: rest, s =>
    tryPrefixes (fun pre rem => (matchSeqF fl rest rem).map (fun (cs, m, r) => (cs, pre ++ m, r)))
      (runLen cc neg s) s
  | fl+1, .plus cc neg :: rest, s =>
    tryPrefixes1 (fun pre rem => (matchSeqF fl rest rem).map (fun (cs, m, r) => (cs, pre ++ m, r)))
      (runLen cc neg s) s
  | fl+1, .gplus cc neg :: rest, s =>
    tryPrefixes1
      (fun pre rem => (matchSeqF fl rest rem).map (fun (cs, m, r) => (pre :: cs, pre ++ m, r)))
      (runLen cc neg s) s
  | fl+1, .gstar cc neg :: rest, s =>
    tryPrefixes
      (fun pre rem => (matchSeqF fl rest rem).map (fun (cs, m, r) => (pre :: cs, pre ++ m, r)))
      (runLen cc neg s) s
  | fl+1, .galt alts :: rest, s =>
    tryAlts (fun a rem => (matchSeqF fl rest rem).map (fun (cs, m, r) => (a :: cs, a ++ m, r)))
      alts s

def matchSeq (items : List RItem) (s : List Char) :
    Option (List (List Char) × List Char × List Char) :=
  matchSeqF (items.length + 1) items s

/-- Leftmost search, as Python `re.search`: try a match at every position. -/
def searchM (p : List RItem) : List Char → Option (List (List Char) × List Char × List Char)
  | [] => matchSeq p []
  | c :: s' =>
    match matchSeq p (c :: s') with
    | some r => some r
    | none => searchM p s'

def searchCaps (p : List RItem) (s : List Char) : Option (List (List Char)) :=
  (searchM p s).map (fun (cs, _, _) => cs)

/-- Non-overlapping matches, as Python `re.findall`/`finditer`: after a match,
continue right after it.  Every pattern used below matches at least one
character, so the fuel `s.length + 1` is never exhausted (Python would advance
by one on an empty match; that case cannot arise here). -/
def findallF : Nat → List RItem → List Char → List (List (List Char) × List Char)
  | 0, _, _ => []
  | fl+1, p, s =>
    match searchM p s with
    | none => []
    | some (caps, m, rest) => (caps, m) :: findallF fl p rest

def findall (p : List RItem) (s : List Char) : List (List (List Char) × List Char) :=
  findallF (s.length + 1) p s

/-- Python `re.findall` result for a pattern with at most one capture group:
the group if the pattern captures, otherwise the whole match.  (No pattern of
`agent_service.py` that is used with `findall` has two or more groups, so the
tuple branch of `extract_real_urls` never runs.) -/
def findallStrs (p : List RItem) (s : List Char) : List (List Char) :=
  (findall p s).map (fun (caps, m) => caps.headD m)

/-! ### Python string helpers -/

/-- The apostrophe character. -/
def quoteC : Char := Char.ofNat 39

/-- Whitespace stripped by Python `str.strip()` / matched by `\s`, modelled
exactly on the Latin-1 range (whitespace code points above U+00FF never occur
in any statement below). -/
def pyIsSpace (c : Char) : Bool :=
  c = ' ' || c = '\t' || c = '\n' || c = '\r' || c = '\x0b' || c = '\x0c' ||
  c = '\x1c' || c = '\x1d' || c = '\x1e' || c = '\x1f' || c = '\x85' || c = '\xa0'

/-- Remove the maximal run of characters satisfying `p` from the end of a list. -/
def rstripIf (p : Char → Bool) : List Char → List Char
  | [] => []
  | c :: cs =>
    match rstripIf p cs with
    | [] => if p c then [] else [c]
    | r => c :: r

/-- Python `str.strip()` (no argument): whitespace off both ends. -/
def pyStripL (s : List Char) : List Char :=
  rstripIf pyIsSpace (s.dropWhile pyIsSpace)

def isQuoteChar (c : Char) : Bool := c = '"' || c = quoteC

/-- Python `str.strip('\x27"')`: quote characters off both ends. -/
def stripQuotes (s : List Char) : List Char :=
  rstripIf isQuoteChar (s.dropWhile isQuoteChar)

/-- Python `needle in hay` on strings (substring containment). -/
def containsSub (needle : List Char) : List Char → Bool
  | [] => needle.isPrefixOf []
  | c :: rest => needle.isPrefixOf (c :: rest) || containsSub needle rest

/-- Python `str.replace(old, new)`: replace all non-overlapping occurrences,
left to right.  `old` is non-empty at every use site, so the fuel
`s.length + 1` is never exhausted. -/
def pyReplaceF : Nat → List Char → List Char → List Char → List Char
  | 0, _, _, s => s
  | fl+1, old, new, s =>
    if old.isPrefixOf s then new ++ pyReplaceF fl old new (s.drop old.length)
    else
      match s with
      | [] => []
      | c :: rest => c :: pyReplaceF fl old new rest

def pyReplace (old new s : List Char) : List Char :=
  pyReplaceF (s.length + 1) old new s

/-- Python `code.split('\n')`. -/
def splitLines : List Char → List (List Char)
  | [] => [[]]
  | c :: rest =>
    match splitLines rest with
    | [] => [[]]
    | l :: ls => if c = '\n' then [] :: l :: ls else (c :: l) :: ls

/-- The de-duplication loop of `extract_real_urls` (and the model of
`list(set(...))`, whose iteration order is a fixed function of the insertions
within one process): keep the first occurrence of each element. -/
def dedupAux (unique_urls : List String) : List String → List String
  | [] => unique_urls
  | url :: rest =>
    if url ∈ unique_urls then dedupAux unique_urls rest
    else dedupAux (unique_urls ++ [url]) rest

/-- Specification-side description of first-occurrence de-duplication: keep an
element exactly when it has not been seen before. -/
def keepFirsts (seen : List String) : List String → List String
  | [] => []
  | x :: xs => if x ∈ seen then keepFirsts seen xs else x :: keepFirsts (x :: seen) xs

/-- Python dict assignment `d[k] = v` for a dict modelled as an association
list: replace the value in place if the key exists, else append. -/
def dictInsert : List (String × α) → String → α → List (String × α)
  | [], k, v => [(k, v)]
  | (k', v') :: rest, k, v =>
    if k' = k then (k, v) :: rest else (k', v') :: dictInsert rest k v

/-- Python dict lookup `d.get(k)`. -/
def dictGet? : List (String × α) → String → Option α
  | [], _ => none
  | (k', v) :: rest, k => if k' = k then some v else dictGet? rest k

/-! ### The regular expressions of `EnhancedCodeAnalyzer` -/

def quote_class : List Char := ['"', quoteC]

/-- `["\x27]` -/
def qi : RItem := .cls quote_class false

/-- `([^"\x27]+)` -/
def nq_gplus : RItem := .gplus quote_class true

/-- `([^"\x27]*)` -/
def nq_gstar : RItem := .gstar quote_class true

/-- `[^"\x27]+` (non-capturing) -/
def nq_plus : RItem := .plus quote_class true

def wsChars : List Char :=
  [' ', '\t', '\n', '\r', '\x0b', '\x0c', '\x1c', '\x1d', '\x1e', '\x1f', '\x85', '\xa0']

/-- `\s*` -/
def wsStar : RItem := .star wsChars false

/-- `\s+` -/
def wsPlus : RItem := .plus wsChars false

/-- `.*` (greedy, `.` does not match a newline) -/
def dotStar : RItem := .star ['\n'] true

def lits (s : String) : List RItem := s.data.map .lit

/-- `cy\.visit\s*\(\s*["\x27]([^"\x27]+)["\x27]` -/
def url_pat_visit : List RItem :=
  lits "cy.visit" ++ [wsStar, .lit '(', wsStar, qi, nq_gplus, qi]

/-- `cy\.url\(\)\s*\.should\s*\(\s*["\x27]eq["\x27],\s*["\x27]([^"\x27]+)["\x27]` -/
def url_pat_url_should : List RItem :=
  lits "cy.url()" ++ [wsStar] ++ lits ".should" ++ [wsStar, .lit '(', wsStar, qi] ++
  lits "eq" ++ [qi, .lit ',', wsStar, qi, nq_gplus, qi]

/-- `page\.goto\s*\(\s*["\x27]([^"\x27]+)["\x27]` -/
def url_pat_goto : List RItem :=
  lits "page.goto" ++ [wsStar, .lit '(', wsStar, qi, nq_gplus, qi]

/-- `await\s+page\.goto\s*\(\s*["\x27]([^"\x27]+)["\x27]` -/
def url_pat_await_goto : List RItem :=
  lits "await" ++ [wsPlus] ++ lits "page.goto" ++ [wsStar, .lit '(', wsStar, qi, nq_gplus, qi]

/-- `driver\.get\s*\(\s*["\x27]([^"\x27]+)["\x27]` -/
def url_pat_driver_get : List RItem :=
  lits "driver.get" ++ [wsStar, .lit '(', wsStar, qi, nq_gplus, qi]

/-- `get\s*\(\s*["\x27]([^"\x27]+)["\x27]` -/
def url_pat_get : List RItem :=
  lits "get" ++ [wsStar, .lit '(', wsStar, qi, nq_gplus, qi]

/-- `["\x27]https?://[^"\x27]+["\x27]` — no capture group, so `findall`
returns the whole match, quotes included. -/
def url_pat_quoted : List RItem :=
  [qi] ++ lits "http" ++ [.opt 's'] ++ lits "://" ++ [nq_plus, qi]

def url_extraction_patterns : List (List RItem) :=
  [url_pat_visit, url_pat_url_should, url_pat_goto, url_pat_await_goto,
   url_pat_driver_get, url_pat_get, url_pat_quoted]

/-- The combined type-then-assert-value chain pattern of `parse_test_steps`. -/
def chain_pattern : List RItem :=
  lits "cy.get" ++ [wsStar, .lit '(', wsStar, qi, nq_gplus, qi, wsStar, .lit ')', wsStar] ++
  lits ".type" ++ [wsStar, .lit '(', wsStar, qi, nq_gstar, qi, dotStar] ++
  lits ".should" ++ [wsStar, .lit '(', wsStar, qi] ++ lits "have.value" ++
  [qi, wsStar, .lit ',', wsStar, qi, nq_gstar, qi]

/-- `cy\.url\(\)\s*\.should\s*\(\s*["\x27]eq["\x27]\s*,\s*["\x27]([^"\x27]+)["\x27]` -/
def url_assert_pattern : List RItem :=
  lits "cy.url()" ++ [wsStar] ++ lits ".should" ++ [wsStar, .lit '(', wsStar, qi] ++
  lits "eq" ++ [qi, wsStar, .lit ',', wsStar, qi, nq_gplus, qi]

/-- `(cy\.visit|page\.goto|driver\.get)\s*\(\s*["\x27]([^"\x27]+)["\x27]` -/
def nav_pattern : List RItem :=
  [.galt ["cy.visit".data, "page.goto".data, "driver.get".data], wsStar, .lit '(', wsStar, qi,
   nq_gplus, qi]

/-- `cy\.get\s*\(\s*["\x27]([^"\x27]+)["\x27].*\.click\s*\(` -/
def click_pattern : List RItem :=
  lits "cy.get" ++ [wsStar, .lit '(', wsStar, qi, nq_gplus, qi, dotStar] ++
  lits ".click" ++ [wsStar, .lit '(']

/-- `cy\.get\s*\(\s*["\x27]([^"\x27]+)["\x27].*\.type\s*\(\s*["\x27]([^"\x27]*)["\x27]` -/
def type_pattern : List RItem :=
  lits "cy.get" ++ [wsStar, .lit '(', wsStar, qi, nq_gplus, qi, dotStar] ++
  lits ".type" ++ [wsStar, .lit '(', wsStar, qi, nq_gstar, qi]

/-! ### `EnhancedCodeAnalyzer.extract_real_urls` -/

def startsWithHttp (m : List Char) : Bool :=
  "http://".data.isPrefixOf m || "https://".data.isPrefixOf m

/-- The list collected by the nested loops of `extract_real_urls` before
de-duplication: for each pattern in order, each match in text order is kept
when it is non-empty and starts with `http://` or `https://`, with quote
characters then stripped from both ends. -/
def raw_url_matches (code : String) : List String :=
  (url_extraction_patterns.map (fun p =>
    (findallStrs p code.data).filterMap (fun m =>
      if m ≠ [] ∧ startsWithHttp m then some (String.mk (stripQuotes m)) else none))).flatten

def extract_real_urls (code : String) : List String :=
  dedupAux [] (raw_url_matches code)

/-! ### `EnhancedCodeAnalyzer.parse_test_steps` -/

/-- One parsed step.  The Python code builds heterogeneous dicts whose key set
depends on the step type; absent keys are `none` here. -/
structure Step where
  type_ : String
  action : String
  selector : Option String
  value : Option String
  url : Option String
  assertion_type : Option String
  expected_value : Option String
  line_number : Nat
  original_code : String
deriving Repr, DecidableEq

/-- The body of the per-line loop of `parse_test_steps`: strip the line, skip
blank/comment lines, then try the five patterns in the source's priority
order, the first match winning. -/
def stepsOfLine (line_num : Nat) (rawLine : List Char) : List Step :=
  let line := pyStripL rawLine
  if line = [] ∨ "//".data.isPrefixOf line ∨ "*".data.isPrefixOf line then []
  else
    match searchCaps chain_pattern line with
    | some caps =>
      [{ type_ := "input", action := "type", selector := some (String.mk (caps.getD 0 [])),
         value := some (String.mk (caps.getD 1 [])), url := none, assertion_type := none,
         expected_value := none, line_number := line_num, original_code := String.mk line },
       { type_ := "assert_value", action := "should",
         selector := some (String.mk (caps.getD 0 [])), value := none, url := none,
         assertion_type := some "have.value",
         expected_value := some (String.mk (caps.getD 2 [])), line_number := line_num,
         original_code := String.mk line }]
    | none =>
      match searchCaps url_assert_pattern line with
      | some caps =>
        [{ type_ := "assert_url", action := "should", selector := some "url", value := none,
           url := none, assertion_type := some "eq",
           expected_value := some (String.mk (caps.getD 0 [])), line_number := line_num,
           original_code := String.mk line }]
      | none =>
        match searchCaps nav_pattern line with
        | some caps =>
          [{ type_ := "navigation", action := String.mk (caps.getD 0 []), selector := none,
             value := none, url := some (String.mk (caps.getD 1 [])), assertion_type := none,
             expected_value := none, line_number := line_num, original_code := String.mk line }]
        | none =>
          match searchCaps click_pattern line with
          | some caps =>
            [{ type_ := "click", action := "click",
               selector := some (String.mk (caps.getD 0 [])), value := none, url := none,
               assertion_type := none, expected_value := none, line_number := line_num,
               original_code := String.mk line }]
          | none =>
            match searchCaps type_pattern line with
            | some caps =>
              if containsSub ".should(".data line then []
              else
                [{ type_ := "input", action := "type",
                   selector := some (String.mk (caps.getD 0 [])),
                   value := some (String.mk (caps.getD 1 [])), url := none,
                   assertion_type := none, expected_value := none, line_number := line_num,
                   original_code := String.mk line }]
            | none => []

def parse_test_steps (code : String) : List Step :=
  ((splitLines code.data).enumFrom 1).flatMap (fun p => stepsOfLine p.1 p.2)

/-! ### `EnhancedCodeAnalyzer.detect_language_and_framework` -/

def language_map : List (String × String) :=
  [(".js", "javascript"), (".jsx", "javascript"), (".ts", "typescript"),
   (".tsx", "typescript"), (".vue", "vue"), (".py", "python"), (".rb", "ruby"),
   (".dart", "dart"), (".kt", "kotlin"), (".swift", "swift"), (".java", "java"),
   (".cs", "csharp")]

/-- The extension part of `os.path.splitext` (POSIX): the suffix of the
basename from its last dot, unless every character of the basename before that
dot is itself a dot (leading dots carry no extension). -/
def splitext_ext (path : List Char) : List Char :=
  let base := (path.reverse.takeWhile (fun c => ¬ (c = '/'))).reverse
  let afterRev := base.reverse.takeWhile (fun c => ¬ (c = '.'))
  if afterRev.length = base.length then []
  else
    let stem := base.take (base.length - afterRev.length - 1)
    if stem.all (fun c => c = '.') then [] else '.' :: afterRev.reverse

/-- `(name, keywords, imports, weight)` rows of `framework_patterns`, in the
dict's insertion order. -/
def framework_patterns : List (String × List String × List String × Nat) :=
  [("cypress", ["cy.", "cypress", "cy.visit", "cy.get", "cy.click", "cy.type", "cy.should"],
    ["cypress"], 3),
   ("playwright", ["page.", "test(", "expect(", "page.goto", "page.locator", "page.click",
    "page.fill"], ["@playwright/test", "playwright"], 3),
   ("selenium", ["driver", "WebDriver", "findElement", "By.", "selenium"],
    ["selenium-webdriver", "webdriver"], 2),
   ("jest", ["describe(", "test(", "it(", "expect(", "beforeEach", "afterEach"],
    ["jest", "@jest/globals"], 2)]

def framework_score (code : List Char) (keywords imports : List String) (weight : Nat) : Nat :=
  let s1 := keywords.foldl (fun sc kw => if containsSub kw.data code then sc + weight else sc) 0
  imports.foldl (fun sc imp => if containsSub imp.data code then sc + weight * 2 else sc) s1

/-- Stable insertion of one scored framework into a list sorted by strictly
descending score (ties keep earlier-inserted elements first, as Python's
stable `list.sort(key=..., reverse=True)`). -/
def insertDesc (x : String × Nat) : List (String × Nat) → List (String × Nat)
  | [] => [x]
  | y :: ys => if x.2 > y.2 then x :: y :: ys else y :: insertDesc x ys

def stableSortDesc (l : List (String × Nat)) : List (String × Nat) :=
  l.foldl (fun acc x => insertDesc x acc) []

def detect_language_and_framework (filename code : String) : String × List String :=
  let ext := String.mk ((splitext_ext filename.data).map Char.toLower)
  let language := (dictGet? language_map ext).getD "javascript"
  let frameworks := framework_patterns.filterMap (fun fp =>
    let score := framework_score code.data fp.2.1 fp.2.2.1 fp.2.2.2
    if score > 0 then some (fp.1, score) else none)
  (language, (stableSortDesc frameworks).map Prod.fst)

/-! ### `EnhancedCodeAnalyzer.normalize_filename` -/

/-- Python's `\w` on `str` is Unicode-aware ("word" characters: alphanumerics
by the Unicode database, plus the underscore).  The model is exact on the
Latin-1 range (`U+0000`–`U+00FF`): ASCII alphanumerics and underscore, the
letters ª µ º, the numeric characters ² ³ ¹ ¼ ½ ¾, and the Latin-1 letters
`U+00C0`–`U+00FF` except × and ÷.  Word characters above `U+00FF` are not
modelled (no statement below evaluates the function there). -/
def isPyWordChar (c : Char) : Bool :=
  let n := c.toNat
  (97 ≤ n && n ≤ 122) || (65 ≤ n && n ≤ 90) || (48 ≤ n && n ≤ 57) || n = 95 ||
  n = 0xaa || n = 0xb2 || n = 0xb3 || n = 0xb5 || n = 0xb9 ||
  n = 0xba || n = 0xbc || n = 0xbd || n = 0xbe ||
  (0xc0 ≤ n && n ≤ 0xff && !(n = 0xd7) && !(n = 0xf7))

/-- Python `s.rsplit('.', 1)`: split off the part after the last dot, if any. -/
def pyRsplitDot1 (s : List Char) : List (List Char) :=
  let afterRev := s.reverse.takeWhile (fun c => ¬ (c = '.'))
  if afterRev.length = s.length then [s]
  else [s.take (s.length - afterRev.length - 1), afterRev.reverse]

def normalize_filename (filename : String) : String :=
  let normalized :=
    pyReplace ".cy.".data "_cy_".data
      (pyReplace ".spec.".data "_spec_".data
        (pyReplace ".test.".data "_test_".data filename.data))
  let parts := pyRsplitDot1 normalized
  let normalized :=
    if parts.length > 1 then parts.getD 0 [] ++ '_' :: parts.getD 1 [] else normalized
  String.mk (normalized.map (fun c => if isPyWordChar c || c = '-' then c else '_'))

/-! ### `EnhancedCodeAnalyzer.calculate_complexity_score` and `analyze_code` -/

/-- The body of the accumulation loop of `calculate_complexity_score`
(lambda-lifted from the `for step in parsed_steps` loop). -/
def complexity_body (score : Nat) (step : Step) : Nat :=
  let step_type := step.type_
  if step_type = "navigation" then score + 1
  else if step_type = "click" then score + 2
  else if step_type = "input" then score + 3
  else if "assert_".data.isPrefixOf step_type.data then score + 2
  else score

def calculate_complexity_score (parsed_steps : List Step) : Nat :=
  parsed_steps.foldl complexity_body 0

structure QualityMetrics where
  urls_found : Nat
  steps_parsed : Nat
  frameworks_detected : Nat
  has_real_urls : Bool
  assertion_types : List String
deriving Repr, DecidableEq

structure AnalysisResult where
  filename : String
  normalized_filename : String
  language_detected : String
  frameworks_detected : List String
  real_urls : List String
  primary_url : Option String
  parsed_steps : List Step
  code_length : Nat
  lines_count : Nat
  complexity_score : Nat
  analysis_timestamp : String
  quality_metrics : QualityMetrics
deriving Repr, DecidableEq

/-- `EnhancedCodeAnalyzer.analyze_code`.  The call
`datetime.now().isoformat()` reads the wall clock; that external input is the
explicit parameter `now_iso`. -/
def analyze_code (code : String) (filename : String) (now_iso : String) : AnalysisResult :=
  let real_urls := extract_real_urls code
  let parsed_steps := parse_test_steps code
  let lf := detect_language_and_framework filename code
  { filename := filename
    normalized_filename := normalize_filename filename
    language_detected := lf.1
    frameworks_detected := lf.2
    real_urls := real_urls
    primary_url := real_urls.head?
    parsed_steps := parsed_steps
    code_length := code.data.length
    lines_count := (splitLines code.data).length
    complexity_score := calculate_complexity_score parsed_steps
    analysis_timestamp := now_iso
    quality_metrics :=
      { urls_found := real_urls.length
        steps_parsed := parsed_steps.length
        frameworks_detected := lf.2.length
        has_real_urls := real_urls.length > 0
        assertion_types :=
          dedupAux [] (parsed_steps.filterMap (fun step =>
            if "assert_".data.isPrefixOf step.type_.data then some step.type_ else none)) } }

/-- Specification-side eraser: forget the timestamp field. -/
def clearTimestamp (a : AnalysisResult) : AnalysisResult :=
  { a with analysis_timestamp := "" }

/-! ### `DynamicPlaywrightGenerator` -/

def _preserve_clean_selector (selector : String) : String :=
  String.mk (stripQuotes selector.data)

def _generate_navigation_step (step : Step) : String :=
  let url := (step.url).getD ""
  if url ≠ "" then
    "  await page.goto(\x27" ++ url ++ "\x27);\n  await page.waitForLoadState(\x27networkidle\x27);"
  else "  //Navigation step - URL not found"

def _generate_click_step (step : Step) : String :=
  let selector := (step.selector).getD ""
  let cleaned_selector := _preserve_clean_selector selector
  if selector ≠ "" then "  await page.locator(\x27" ++ cleaned_selector ++ "\x27).click();"
  else "  //Click step - selector not found"

def _generate_input_step (step : Step) : String :=
  let selector := (step.selector).getD ""
  let value := (step.value).getD ""
  let cleaned_selector := _preserve_clean_selector selector
  if selector ≠ "" ∧ value ≠ "" then
    "  await page.locator(\x27" ++ cleaned_selector ++ "\x27).fill(\x27" ++ value ++ "\x27);"
  else if selector ≠ "" then
    "  await page.locator(\x27" ++ cleaned_selector ++ "\x27).fill(\x27\x27);"
  else "  //Input step - selector not found"

def _generate_url_assertion_step (step : Step) : String :=
  let expected_url := (step.expected_value).getD ""
  if expected_url ≠ "" then "  expect(page.url()).toBe(\x27" ++ expected_url ++ "\x27);"
  else "  //URL assertion - expected URL not found"

def _generate_value_assertion_step (step : Step) : String :=
  let selector := (step.selector).getD ""
  let expected_value := (step.expected_value).getD ""
  let cleaned_selector := _preserve_clean_selector selector
  if selector ≠ "" ∧ expected_value ≠ "" then
    "  await expect(page.locator(\x27" ++ cleaned_selector ++ "\x27)).toHaveValue(\x27" ++
      expected_value ++ "\x27);"
  else if selector ≠ "" then
    "  await expect(page.locator(\x27" ++ cleaned_selector ++ "\x27)).toBeVisible();"
  else "  //Value assertion - selector not found"

def _generate_css_assertion_step (step : Step) : String :=
  let selector := (step.selector).getD ""
  let css_property := ""
  let expected_value := (step.expected_value).getD ""
  let cleaned_selector := _preserve_clean_selector selector
  if selector ≠ "" ∧ css_property ≠ "" ∧ expected_value ≠ "" then
    "  await expect(page.locator(\x27" ++ cleaned_selector ++ "\x27)).toHaveCSS(\x27" ++
      css_property ++ "\x27,\x27" ++ expected_value ++ "\x27);"
  else if selector ≠ "" then
    "  await expect(page.locator(\x27" ++ cleaned_selector ++ "\x27)).toBeVisible();"
  else "  //CSS assertion - missing properties"

def _generate_generic_assertion_step (step : Step) : String :=
  let selector := (step.selector).getD ""
  let assertion_type := (step.assertion_type).getD ""
  let expected_value := (step.expected_value).getD ""
  let cleaned_selector := _preserve_clean_selector selector
  if assertion_type = "be.visible" ∨ assertion_type = "be.visible()" ∨
      assertion_type = "exist" ∨ assertion_type = "be.exist" then
    "  await expect(page.locator(\x27" ++ cleaned_selector ++ "\x27)).toBeVisible();"
  else if (assertion_type = "have.text" ∨ assertion_type = "contain.text" ∨
      assertion_type = "contain") ∧ expected_value ≠ "" then
    "  await expect(page.locator(\x27" ++ cleaned_selector ++ "\x27)).toContainText(\x27" ++
      expected_value ++ "\x27);"
  else "  await expect(page.locator(\x27" ++ cleaned_selector ++ "\x27)).toBeVisible();"

def _generate_wait_step (_step : Step) : String :=
  "  await page.waitForLoadState(\x27networkidle\x27);"

/-- The dispatch table `playwright_mappings` of `DynamicPlaywrightGenerator`:
step type → snippet rule, `none` for an unregistered type. -/
def playwright_mappings (k : String) : Option (Step → String) :=
  if k = "navigation" then some _generate_navigation_step
  else if k = "click" then some _generate_click_step
  else if k = "input" then some _generate_input_step
  else if k = "assert_url" then some _generate_url_assertion_step
  else if k = "assert_value" then some _generate_value_assertion_step
  else if k = "assert_css" then some _generate_css_assertion_step
  else if k = "assertion" then some _generate_generic_assertion_step
  else if k = "wait" then some _generate_wait_step
  else none

/-- The per-step lines appended by the loop of `generate_playwright_test`:
one line per step whose type has a registered rule, in step order; steps of
unknown type are skipped. -/
def stepLines (steps : List Step) : List String :=
  steps.filterMap (fun step => (playwright_mappings step.type_).map (fun g =>
    "    " ++ g step ++ "\n"))

def generate_playwright_test (analysis : AnalysisResult) : String :=
  let header :=
    "const \x7b test, expect \x7d = require(\x27@playwright/test\x27);\n\n" ++
    "test.describe(\x27" ++ analysis.normalized_filename ++ " - Generated Tests\x27, () => \x7b"
  let beforeEach :=
    match analysis.primary_url with
    | some u =>
      "\n  test.beforeEach(async (\x7b page \x7d) => \x7b\n    await page.goto(\x27" ++ u ++
      "\x27);\n    await page.waitForLoadState(\x27networkidle\x27);\n  \x7d);"
    | none => ""
  header ++ beforeEach ++
    "\n  test(\x27Application functionality test\x27, async (\x7b page \x7d) => \x7b\n" ++
    String.join (stepLines analysis.parsed_steps) ++ "  \x7d);\n\x7d);\n"

/-! ### `backend/app/models.py` and `backend/app/runner.py` -/

/-- `models.AgentState`. -/
structure AgentSt where
  key : String
  label : String
  state : String
  message : Option String
deriving Repr, DecidableEq

/-- `models.Coverage`.  The percentages are Python floats; none of the
modelled functions does arithmetic on them, so they are carried as rationals. -/
structure Coverage where
  overall_percentage : Rat
  statements_percentage : Rat
  functions_percentage : Rat
  branches_percentage : Rat
  coverage_collected : Bool
  source : String
deriving Repr, DecidableEq

/-- `models.FileStatus`. -/
structure FileStatus where
  path : String
  status : String
deriving Repr, DecidableEq

/-- The `AGENTS` constant of `models.py`: `(key, label)` in order. -/
def AGENTS : List (String × String) :=
  [("code_analysis", "Code Analysis"), ("user_story", "User Story Generation"),
   ("gherkin", "Gherkin Scenarios"), ("test_plan", "Test Plan Creation"),
   ("playwright", "Playwright Test Generation"), ("execution", "Test Execution"),
   ("coverage", "Coverage Analysis"), ("final_report", "Final Report")]

/-- `models.Run`. -/
structure RunV where
  runId : String
  status : String
  agents : List AgentSt
  coverage : Option Coverage
  files : List FileStatus
  artifacts : List (String × String)
  errors : List String
deriving Repr, DecidableEq

/-- `RunManager._initialize_agents`: all agents idle. -/
def init_agents : List AgentSt :=
  AGENTS.map (fun p => { key := p.1, label := p.2, state := "idle", message := none })

/-- The in-memory registries of `RunManager`.  `run_tasks` is the
`Dict[str, asyncio.Task]` created in `__init__`; `event_queues` is modelled by
the set of run ids that own a queue. -/
structure RunManagerSt where
  active_runs : List (String × RunV)
  completed_runs : List (String × RunV)
  run_tasks : List String
  event_queues : List String
deriving Repr, DecidableEq

def init_manager : RunManagerSt :=
  { active_runs := [], completed_runs := [], run_tasks := [], event_queues := [] }

/-- The synchronous part of `RunManager.start_run`: register a `queued` run
with idle agents, create its event queue, and spawn the background thread
(the thread's later effects are concurrent and not part of this call).  Note
that `run_tasks` is not touched — nothing in `runner.py` ever writes to it. -/
def start_run (m : RunManagerSt) (run_id : String) : RunManagerSt :=
  let run : RunV :=
    { runId := run_id, status := "queued", agents := init_agents, coverage := none,
      files := [], artifacts := [], errors := [] }
  { m with
    active_runs := dictInsert m.active_runs run_id run
    event_queues :=
      if m.event_queues.contains run_id then m.event_queues else m.event_queues ++ [run_id] }

/-- `RunManager.cancel_run`: cancellable only when `run_id ∈ run_tasks`; in
that case the active run (if any) is marked `failed` with a recorded reason
and `True` is returned, else `False`. -/
def cancel_run (m : RunManagerSt) (run_id : String) : RunManagerSt × Bool :=
  if m.run_tasks.contains run_id then
    (match dictGet? m.active_runs run_id with
     | some run =>
       let run' : RunV :=
         { run with status := "failed", errors := run.errors ++ ["Run cancelled by user"] }
       { m with active_runs := dictInsert m.active_runs run_id run' }
     | none => m, true)
  else (m, false)

/-- One event consumed by `RunManager._process_agent_event`: a dict with
optional `agent`, `state`, `message`, `coverage` and `artifact` keys.  A
present `coverage` value is a dict or not (`isinstance(coverage_data, dict)`). -/
inductive CovVal where
  | dict (c : Coverage)
  | nondict
deriving Repr, DecidableEq

structure REvent where
  agent : Option String
  state : Option String
  message : Option String
  coverage : Option CovVal
  artifact : Option String
deriving Repr, DecidableEq

/-- The `for agent in run.agents: ... break` loop: update state and message of
the first agent whose key matches, leave the rest unchanged. -/
def updateFirst (agents : List AgentSt) (agent_key agent_state agent_message : String) :
    List AgentSt :=
  match agents with
  | [] => []
  | a :: rest =>
    if a.key = agent_key then { a with state := agent_state, message := agent_message } :: rest
    else a :: updateFirst rest agent_key agent_state agent_message

/-- `RunManager._process_agent_event` on a run that is present in
`active_runs` (for an absent run the method returns without touching
anything).  `event.get("message", "")` defaults to the empty string;
`event.get("agent", "unknown")` defaults to `"unknown"` for the artifact key. -/
def _process_agent_event (run : RunV) (event : REvent) : RunV :=
  let run1 :=
    match event.agent, event.state with
    | some agent_key, some agent_state =>
      { run with agents :=
          updateFirst run.agents agent_key agent_state ((event.message).getD "") }
    | _, _ => run
  let run2 :=
    match event.coverage with
    | some (.dict c) => { run1 with coverage := some c }
    | _ => run1
  match event.artifact with
  | some a => { run2 with artifacts := dictInsert run2.artifacts ((event.agent).getD "unknown") a }
  | none => run2

/-! ### The `process_workflow` stage loop of `agent_service.py` -/

/-- The run state threaded through the eight agents of `agent_service.py`:
the `errors` list and `current_step` marker the resilience claim is about,
plus the remaining fields abstracted as a payload of type `α`. -/
structure TAState (α : Type) where
  errors : List String
  current_step : String
  payload : α
deriving Repr, DecidableEq

/-- The events broadcast by `process_workflow` and the agents. -/
inductive WEvent where
  | workflow_progress (current_agent : String)
  | agent_update (agent : String) (status : String) (message : String)
  | workflow_complete (status : String) (errors : List String)
  | workflow_error (error : String)
deriving Repr, DecidableEq

/-- The shape shared by all eight agent functions of `agent_service.py`:
broadcast a `running` update, run the body under `try` (each body reads the
state and, on success, writes the derived artifacts — the payload — and
`current_step`; no body writes `errors`), and on an exception append the
message to `state["errors"]`, broadcast an `error` update and return the
state, so a failing body never escapes the stage.  (The per-stage
`try`/`except ... continue` of `Notebook24Adapter.analyze_code` has the same
shape.) -/
def run_agent (name : String) (body : TAState α → Except String (α × String)) (st : TAState α) :
    TAState α × List WEvent :=
  match body st with
  | .ok (p, step) =>
    ({ st with payload := p, current_step := step },
     [.agent_update name "running" "", .agent_update name "success" ""])
  | .error e =>
    ({ st with errors := st.errors ++ [name ++ " failed: " ++ e] },
     [.agent_update name "running" "", .agent_update name "error" (name ++ " failed: " ++ e)])

/-- The `for agent_name, agent_func in agents:` loop of `process_workflow`:
broadcast progress, run the stage, thread the state on. -/
def run_agents_loop :
    List (String × (TAState α → Except String (α × String))) → TAState α →
      TAState α × List WEvent
  | [], st => (st, [])
  | (name, body) :: rest, st =>
    let r := run_agent name body st
    let r' := run_agents_loop rest r.1
    (r'.1, (WEvent.workflow_progress name :: r.2) ++ r'.2)

/-- `process_workflow`: run the fixed agent list, then broadcast the
`workflow_complete` event with the accumulated errors.  (The `try` around the
loop would emit `workflow_error` only if an agent function itself escaped; the
agents all catch their bodies' exceptions, as `run_agent` models.) -/
def process_workflow (agents : List (String × (TAState α → Except String (α × String))))
    (st : TAState α) : TAState α × List WEvent :=
  let r := run_agents_loop agents st
  (r.1, r.2 ++ [WEvent.workflow_complete "completed" r.1.errors])

/-- Projection used to observe which stages were attempted: the agent named by
a `workflow_progress` event. -/
def progress_agent? : WEvent → Option String
  | .workflow_progress a => some a
  | _ => none

/-- The fixed stage order of `process_workflow`. -/
def workflow_agent_names : List String :=
  ["code_analysis", "user_story", "gherkin", "test_plan", "playwright", "execution",
   "coverage", "final_report"]

/-! ### Specification-side definitions used by the claims -/

/-- The per-kind weight table named by claim C6. -/
def step_weight (s : Step) : Nat :=
  if s.type_ = "navigation" then 1
  else if s.type_ = "click" then 2
  else if s.type_ = "input" then 3
  else if "assert_".data.isPrefixOf s.type_.data then 2
  else 0

/-- The five step kinds the parser can emit (claim C9). -/
def allowed_step_kinds : List String :=
  ["navigation", "click", "input", "assert_url", "assert_value"]

/-- The character set `[A-Za-z0-9_-]` named by claim C7 (code points: lower
and upper ASCII letters, ASCII digits, underscore 95, hyphen 45). -/
def isClaimAllowedChar (c : Char) : Bool :=
  let n := c.toNat
  (97 ≤ n && n ≤ 122) || (65 ≤ n && n ≤ 90) || (48 ≤ n && n ≤ 57) || n = 95 || n = 45

/-! ## Helper lemmas about de-duplication -/

theorem mem_dedupAux : ∀ (l acc : List String) (x : String),
    x ∈ dedupAux acc l ↔ x ∈ acc ∨ x ∈ l := by
  intro l
  induction l with
  | nil => intro acc x; simp [dedupAux]
  | cons url rest ih =>
    intro acc x
    by_cases h : url ∈ acc
    · rw [dedupAux, if_pos h, ih]
      constructor
      · rintro (hx | hx)
        · exact Or.inl hx
        · exact Or.inr (List.mem_cons_of_mem _ hx)
      · rintro (hx | hx)
        · exact Or.inl hx
        · rcases List.mem_cons.mp hx with rfl | hx
          · exact Or.inl h
          · exact Or.inr hx
    · rw [dedupAux, if_neg h, ih]
      simp only [List.mem_append, List.mem_cons, List.mem_singleton]
      tauto

theorem dedupAux_nodup : ∀ (l acc : List String), acc.Nodup → (dedupAux acc l).Nodup := by
  intro l
  induction l with
  | nil => intro acc h; simpa [dedupAux] using h
  | cons url rest ih =>
    intro acc h
    by_cases hm : url ∈ acc
    · rw [dedupAux, if_pos hm]; exact ih acc h
    · rw [dedupAux, if_neg hm]
      refine ih (acc ++ [url]) ?_
      rw [List.nodup_append]
      exact ⟨h, List.nodup_singleton url, by
        intro a ha hb
        rw [List.mem_singleton] at hb
        exact hm (hb ▸ ha)⟩

theorem dedupAux_eq_keepFirsts : ∀ (l acc seen : List String),
    (∀ x, x ∈ acc ↔ x ∈ seen) → dedupAux acc l = acc ++ keepFirsts seen l := by
  intro l
  induction l with
  | nil => intro acc seen _; simp [dedupAux, keepFirsts]
  | cons url rest ih =>
    intro acc seen hiff
    by_cases h : url ∈ acc
    · rw [dedupAux, if_pos h, keepFirsts, if_pos ((hiff url).mp h)]
      exact ih acc seen hiff
    · rw [dedupAux, if_neg h, keepFirsts, if_neg (fun hs => h ((hiff url).mpr hs))]
      rw [ih (acc ++ [url]) (url :: seen) (by
        intro x
        simp only [List.mem_append, List.mem_singleton, List.mem_cons, hiff x]
        tauto)]
      simp

/-! ## Helper lemmas about quote stripping -/

theorem rstripIf_cons (p : Char → Bool) (c : Char) (cs : List Char) :
    rstripIf p (c :: cs) =
      if rstripIf p cs = [] then (if p c then [] else [c]) else c :: rstripIf p cs := by
  rw [rstripIf]
  cases h : rstripIf p cs with
  | nil => simp
  | cons d ds => simp

theorem rstripIf_append (p : Char → Bool) : ∀ (a t : List Char),
    rstripIf p (a ++ t) = if rstripIf p t = [] then rstripIf p a else a ++ rstripIf p t := by
  intro a
  induction a with
  | nil =>
    intro t
    by_cases h : rstripIf p t = [] <;> simp [h, rstripIf]
  | cons c a' ih =>
    intro t
    by_cases h : rstripIf p t = []
    · rw [if_pos h, List.cons_append, rstripIf_cons, ih t, if_pos h, rstripIf_cons]
    · have hne : ¬ a' ++ rstripIf p t = [] := by
        intro hh
        exact h (List.append_eq_nil.mp hh).2
      rw [if_neg h, List.cons_append, rstripIf_cons, ih t, if_neg h, if_neg hne]
      simp

theorem stripQuotes_startsWithHttp (m : List Char) (h : startsWithHttp m = true) :
    startsWithHttp (stripQuotes m) = true := by
  have main : ∀ (pre : List Char), pre.isPrefixOf m = true →
      rstripIf isQuoteChar pre = pre → (isQuoteChar (pre.headD ' ') = false) → pre ≠ [] →
      pre.isPrefixOf (stripQuotes m) = true := by
    intro pre hpre hfix hhead hne
    obtain ⟨t, rfl⟩ := List.isPrefixOf_iff_prefix.mp hpre
    obtain ⟨c, pre', rfl⟩ : ∃ c pre', pre = c :: pre' := by
      cases pre with
      | nil => exact absurd rfl hne
      | cons c pre' => exact ⟨c, pre', rfl⟩
    rw [List.isPrefixOf_iff_prefix]
    have hdrop : (c :: pre' ++ t).dropWhile isQuoteChar = c :: pre' ++ t := by
      rw [List.cons_append, List.dropWhile_cons]
      simp only [List.headD_cons] at hhead
      rw [hhead]
      simp
    rw [stripQuotes, hdrop, rstripIf_append]
    by_cases ht : rstripIf isQuoteChar t = []
    · rw [if_pos ht, hfix]
    · rw [if_neg ht]
      exact List.prefix_append _ _
  rcases Bool.or_eq_true _ _ |>.mp h with h1 | h1
  · have := main "http://".data h1 (by decide) (by decide) (by decide)
    exact Bool.or_eq_true _ _ |>.mpr (Or.inl this)
  · have := main "https://".data h1 (by decide) (by decide) (by decide)
    exact Bool.or_eq_true _ _ |>.mpr (Or.inr this)

theorem mem_raw_url_matches_startsWithHttp (code : String) (u : String)
    (hu : u ∈ raw_url_matches code) : startsWithHttp u.data = true := by
  rw [raw_url_matches, List.mem_flatten] at hu
  obtain ⟨l, hl, hul⟩ := hu
  rw [List.mem_map] at hl
  obtain ⟨p, _, rfl⟩ := hl
  rw [List.mem_filterMap] at hul
  obtain ⟨m, _, hm⟩ := hul
  by_cases hc : m ≠ [] ∧ startsWithHttp m = true
  · rw [if_pos hc] at hm
    cases hm
    exact stripQuotes_startsWithHttp m hc.2
  · rw [if_neg hc] at hm
    cases hm

/-- Claim C3: every URL returned by `extract_real_urls` begins with
`http://` or `https://` after quote stripping, the returned list is free of
duplicates, and it keeps exactly the first occurrence of each URL collected
across the patterns (so a URL matched by several patterns appears once, at the
position of its first occurrence).  Concretely, `driver.get('https://x.y')` is
collected twice — once by the `driver.get` pattern and once by the generic
`get(` pattern — and returned once. -/
theorem c3_extract_real_urls_dedup :
    (∀ code : String,
        (extract_real_urls code).all (fun u => startsWithHttp u.data) = true ∧
        (extract_real_urls code).Nodup ∧
        extract_real_urls code = keepFirsts [] (raw_url_matches code)) ∧
    raw_url_matches "driver.get(\x27https://x.y\x27)" = ["https://x.y", "https://x.y"] ∧
    extract_real_urls "driver.get(\x27https://x.y\x27)" = ["https://x.y"] := by
  refine ⟨fun code => ⟨?_, ?_, ?_⟩, by decide, by decide⟩
  · rw [List.all_eq_true]
    intro u hu
    rw [extract_real_urls, mem_dedupAux] at hu
    rcases hu with hu | hu
    · exact absurd hu (List.not_mem_nil u)
    · exact mem_raw_url_matches_startsWithHttp code u hu
  · exact dedupAux_nodup _ [] List.nodup_nil
  · exact dedupAux_eq_keepFirsts _ [] [] (fun x => Iff.rfl)

/-! ## Complexity score (claim C6) -/

theorem complexity_body_shift (n : Nat) (s : Step) :
    complexity_body n s = n + step_weight s := by
  simp only [complexity_body, step_weight]
  split_ifs <;> omega

theorem foldl_complexity_shift : ∀ (l : List Step) (n : Nat),
    l.foldl complexity_body n = n + l.foldl complexity_body 0 := by
  intro l
  induction l with
  | nil => intro n; simp
  | cons s rest ih =>
    intro n
    rw [List.foldl_cons, List.foldl_cons, ih (complexity_body n s),
      ih (complexity_body 0 s), complexity_body_shift n s, complexity_body_shift 0 s]
    omega

theorem calculate_complexity_score_cons (s : Step) (l : List Step) :
    calculate_complexity_score (s :: l) = step_weight s + calculate_complexity_score l := by
  rw [calculate_complexity_score, calculate_complexity_score, List.foldl_cons,
    foldl_complexity_shift, complexity_body_shift]
  omega

/-- Claim C6: the complexity score is the sum over the parsed steps of the
fixed per-kind weight table (navigation 1, click 2, input 3, `assert_*` 2,
anything else 0), and is therefore additive under concatenation of step
lists. -/
theorem c6_complexity_score_linear :
    (∀ steps : List Step,
        calculate_complexity_score steps = (steps.map step_weight).sum) ∧
    (∀ l1 l2 : List Step,
        calculate_complexity_score (l1 ++ l2) =
          calculate_complexity_score l1 + calculate_complexity_score l2) := by
  have hsum : ∀ steps : List Step,
      calculate_complexity_score steps = (steps.map step_weight).sum := by
    intro steps
    induction steps with
    | nil => rfl
    | cons s rest ih => rw [calculate_complexity_score_cons, List.map_cons, List.sum_cons, ih]
  refine ⟨hsum, fun l1 l2 => ?_⟩
  rw [hsum, hsum, hsum, List.map_append, List.sum_append]

/-! ## Filename normalization (claim C7) -/

theorem isPyWordChar_ascii (c : Char) (hc : c.toNat < 128) (hw : isPyWordChar c = true) :
    isClaimAllowedChar c = true := by
  simp only [isPyWordChar, isClaimAllowedChar, Bool.or_eq_true, Bool.and_eq_true,
    decide_eq_true_eq, Bool.not_eq_true', decide_eq_false_iff_not] at hw ⊢
  omega

theorem all_of_subset {p : Char → Bool} {l₁ l₂ : List Char} (hsub : l₁ ⊆ l₂)
    (h : l₂.all p = true) : l₁.all p = true := by
  rw [List.all_eq_true] at h ⊢
  exact fun x hx => h x (hsub hx)

theorem pyReplaceF_all {p : Char → Bool} : ∀ (fl : Nat) (old new s : List Char),
    s.all p = true → new.all p = true → (pyReplaceF fl old new s).all p = true := by
  intro fl
  induction fl with
  | zero => intro old new s hs _; simpa [pyReplaceF] using hs
  | succ fl ih =>
    intro old new s hs hnew
    simp only [pyReplaceF]
    by_cases h : old.isPrefixOf s = true
    · rw [if_pos h, List.all_append]
      exact (Bool.and_eq_true _ _).mpr
        ⟨hnew, ih old new (s.drop old.length) (all_of_subset (List.drop_subset _ _) hs) hnew⟩
    · rw [if_neg h]
      cases s with
      | nil => rfl
      | cons c rest =>
        rw [List.all_cons] at hs ⊢
        rcases (Bool.and_eq_true _ _).mp hs with ⟨hc, hrest⟩
        exact (Bool.and_eq_true _ _).mpr ⟨hc, ih old new rest hrest hnew⟩

theorem pyReplace_all {p : Char → Bool} (old new s : List Char)
    (hs : s.all p = true) (hnew : new.all p = true) : (pyReplace old new s).all p = true :=
  pyReplaceF_all _ old new s hs hnew

/-- Counterexample to claim C7 as stated: for the one-character filename `é`
(U+00E9), `normalize_filename` returns `é` unchanged — Python's `\w` is
Unicode-aware, so `é` is not replaced — and `é` is outside `[A-Za-z0-9_-]`. -/
theorem c7_counterexample :
    normalize_filename (String.mk [Char.ofNat 233]) = String.mk [Char.ofNat 233] ∧
    (normalize_filename (String.mk [Char.ofNat 233])).data.all isClaimAllowedChar = false := by
  constructor <;> decide

/-- Claim C7 as amended: the suffix-marker/extension steps are as described,
but the final substitution replaces exactly the characters outside Python's
Unicode-aware `\w` plus `-`; hence every character of the result is a Python
word character or `-` (code point 45), and the original `[A-Za-z0-9_-]`-only
conclusion holds for filenames whose characters are all ASCII. -/
theorem c7_normalize_filename_charset :
    (∀ filename : String,
        (normalize_filename filename).data.all
          (fun c => isPyWordChar c || c.toNat = 45) = true) ∧
    (∀ filename : String,
        filename.data.all (fun c => c.toNat < 128) = true →
        (normalize_filename filename).data.all isClaimAllowedChar = true) := by
  constructor
  · intro filename
    simp only [normalize_filename]
    rw [List.all_map, List.all_eq_true]
    intro c _
    simp only [Function.comp]
    split
    next h =>
      rcases Bool.or_eq_true _ _ |>.mp h with hw | hd
      · exact (Bool.or_eq_true _ _).mpr (Or.inl hw)
      · have hc : c = '-' := of_decide_eq_true hd
        subst hc
        decide
    next h => decide
  · intro filename hascii
    simp only [normalize_filename]
    set A := pyReplace ".cy.".data "_cy_".data
      (pyReplace ".spec.".data "_spec_".data
        (pyReplace ".test.".data "_test_".data filename.data)) with hA
    have hAall : A.all (fun c => c.toNat < 128) = true := by
      rw [hA]
      exact pyReplace_all _ _ _
        (pyReplace_all _ _ _ (pyReplace_all _ _ _ hascii (by decide)) (by decide)) (by decide)
    have hBall : ∀ B : List Char,
        B.all (fun c => c.toNat < 128) = true →
        (B.map (fun c => if isPyWordChar c || c = '-' then c else '_')).all
          isClaimAllowedChar = true := by
      intro B hB
      rw [List.all_map, List.all_eq_true]
      intro c hc
      rw [List.all_eq_true] at hB
      have hcc : c.toNat < 128 := by simpa using hB c hc
      simp only [Function.comp]
      split
      next h =>
        rcases Bool.or_eq_true _ _ |>.mp h with hw | hd
        · exact isPyWordChar_ascii c hcc hw
        · have hcd : c = '-' := of_decide_eq_true hd
          subst hcd
          decide
      next h => decide
    apply hBall
    rw [pyRsplitDot1]
    by_cases hsplit : (A.reverse.takeWhile (fun c => ¬ (c = '.'))).length = A.length
    · simp only [if_pos hsplit, List.length_singleton, gt_iff_lt]
      rw [if_neg (by omega)]
      exact hAall
    · simp only [if_neg hsplit, List.length_cons, List.length_singleton, gt_iff_lt]
      rw [if_pos (by omega)]
      simp only [List.getD_cons_zero, List.getD_cons_succ]
      rw [List.all_append]
      refine (Bool.and_eq_true _ _).mpr ⟨all_of_subset (List.take_subset _ _) hAall, ?_⟩
      rw [List.all_cons]
      refine (Bool.and_eq_true _ _).mpr ⟨by decide, ?_⟩
      refine all_of_subset ?_ hAall
      intro x hx
      rw [List.mem_reverse] at hx
      have hxr : x ∈ A.reverse := (List.takeWhile_prefix _).subset hx
      exact List.mem_reverse.mp hxr

/-- Witness for claim C7's ASCII-restricted theorem at the concrete filename
`login.cy.js`. -/
theorem c7_witness :
    (normalize_filename "login.cy.js").data.all isClaimAllowedChar = true :=
  c7_normalize_filename_charset.2 "login.cy.js" (by decide)

/-! ## Step parsing (claims C2 and C9) -/

/-- Claim C2: `parse_test_steps` works line by line; a line that strips to
empty or starts with `//` or `*` yields nothing; when the combined
type-then-assert-value chain pattern matches a kept line it wins and emits
exactly two steps in order — an input step with the typed value, then an
`assert_value` step with the same selector and the asserted expected value;
the plain type pattern emits nothing when `.should(` occurs in the line; and
on the concrete line of the claim the parser yields
`input(selector=#name, value=Alice)` then
`assert_value(selector=#name, expected_value=Alice)`. -/
theorem c2_parse_steps_priority :
    (∀ (n : Nat) (raw : List Char),
        (pyStripL raw = [] ∨ "//".data.isPrefixOf (pyStripL raw) ∨
          "*".data.isPrefixOf (pyStripL raw)) →
        stepsOfLine n raw = []) ∧
    (∀ (n : Nat) (raw : List Char) (caps : List (List Char)),
        ¬ (pyStripL raw = [] ∨ "//".data.isPrefixOf (pyStripL raw) ∨
          "*".data.isPrefixOf (pyStripL raw)) →
        searchCaps chain_pattern (pyStripL raw) = some caps →
        stepsOfLine n raw =
          [{ type_ := "input", action := "type",
             selector := some (String.mk (caps.getD 0 [])),
             value := some (String.mk (caps.getD 1 [])), url := none, assertion_type := none,
             expected_value := none, line_number := n,
             original_code := String.mk (pyStripL raw) },
           { type_ := "assert_value", action := "should",
             selector := some (String.mk (caps.getD 0 [])), value := none, url := none,
             assertion_type := some "have.value",
             expected_value := some (String.mk (caps.getD 2 [])), line_number := n,
             original_code := String.mk (pyStripL raw) }]) ∧
    (∀ (n : Nat) (raw : List Char) (caps : List (List Char)),
        ¬ (pyStripL raw = [] ∨ "//".data.isPrefixOf (pyStripL raw) ∨
          "*".data.isPrefixOf (pyStripL raw)) →
        searchCaps chain_pattern (pyStripL raw) = none →
        searchCaps url_assert_pattern (pyStripL raw) = none →
        searchCaps nav_pattern (pyStripL raw) = none →
        searchCaps click_pattern (pyStripL raw) = none →
        searchCaps type_pattern (pyStripL raw) = some caps →
        containsSub ".should(".data (pyStripL raw) = true →
        stepsOfLine n raw = []) ∧
    parse_test_steps
        "cy.get(\x27#name\x27).type(\x27Alice\x27).should(\x27have.value\x27, \x27Alice\x27);" =
      [{ type_ := "input", action := "type", selector := some "#name", value := some "Alice",
         url := none, assertion_type := none, expected_value := none, line_number := 1,
         original_code :=
           "cy.get(\x27#name\x27).type(\x27Alice\x27).should(\x27have.value\x27, \x27Alice\x27);" },
       { type_ := "assert_value", action := "should", selector := some "#name", value := none,
         url := none, assertion_type := some "have.value", expected_value := some "Alice",
         line_number := 1,
         original_code :=
           "cy.get(\x27#name\x27).type(\x27Alice\x27).should(\x27have.value\x27, \x27Alice\x27);" }] := by
  refine ⟨?_, ?_, ?_, by decide⟩
  · intro n raw h
    simp only [stepsOfLine]
    rw [if_pos h]
  · intro n raw caps h hchain
    simp only [stepsOfLine]
    rw [if_neg h, hchain]
  · intro n raw caps h hchain hurl hnav hclick htype hshould
    simp only [stepsOfLine]
    rw [if_neg h, hchain, hurl, hnav, hclick, htype]
    simp [hshould]

/-- Witness for claim C2 at concrete inputs: a comment line yields no steps,
and on the claim's example line the theorem instantiates to the two steps. -/
theorem c2_witness :
    stepsOfLine 1 "  // a comment".data = [] ∧
    stepsOfLine 7
        "cy.get(\x27#name\x27).type(\x27Alice\x27).should(\x27have.value\x27, \x27Alice\x27);".data =
      [{ type_ := "input", action := "type", selector := some "#name", value := some "Alice",
         url := none, assertion_type := none, expected_value := none, line_number := 7,
         original_code :=
           "cy.get(\x27#name\x27).type(\x27Alice\x27).should(\x27have.value\x27, \x27Alice\x27);" },
       { type_ := "assert_value", action := "should", selector := some "#name", value := none,
         url := none, assertion_type := some "have.value", expected_value := some "Alice",
         line_number := 7,
         original_code :=
           "cy.get(\x27#name\x27).type(\x27Alice\x27).should(\x27have.value\x27, \x27Alice\x27);" }] :=
  ⟨c2_parse_steps_priority.1 1 "  // a comment".data (by decide),
   c2_parse_steps_priority.2.1 7
     "cy.get(\x27#name\x27).type(\x27Alice\x27).should(\x27have.value\x27, \x27Alice\x27);".data
     ["#name".data, "Alice".data, "Alice".data] (by decide) (by decide)⟩

theorem stepsOfLine_kinds (n : Nat) (raw : List Char) :
    (stepsOfLine n raw).all (fun s => allowed_step_kinds.contains s.type_) = true := by
  simp only [stepsOfLine]
  repeat' split
  all_goals simp [allowed_step_kinds]

/-- Claim C9: every step emitted by `parse_test_steps` has one of the five
kinds `navigation`, `click`, `input`, `assert_url`, `assert_value`; the kinds
`assert_css`, `assertion` and `wait` have rules registered in the Playwright
generator's dispatch table but are outside the parser's range, so those three
rules are never exercised by analyzer output. -/
theorem c9_parser_kind_range :
    (∀ code : String,
        (parse_test_steps code).all (fun s => allowed_step_kinds.contains s.type_) = true) ∧
    (["assert_css", "assertion", "wait"].all
        (fun k => (playwright_mappings k).isSome && !(allowed_step_kinds.contains k)) = true) := by
  refine ⟨fun code => ?_, by decide⟩
  rw [parse_test_steps, List.all_eq_true]
  intro s hs
  rw [List.mem_flatMap] at hs
  obtain ⟨a, _, hsa⟩ := hs
  have h := stepsOfLine_kinds a.1 a.2
  rw [List.all_eq_true] at h
  exact h s hsa

/-! ## Determinism of `analyze_code` (claim C1) -/

/-- Counterexample to claim C1 as stated: two calls of `analyze_code` with the
same code and filename are not identical in every field, because the
`analysis_timestamp` field records `datetime.now().isoformat()` — here the two
calls observe different clock readings. -/
theorem c1_counterexample :
    analyze_code "" "test.js" "2024-01-01T00:00:00" ≠
      analyze_code "" "test.js" "2024-01-01T00:00:01" := by
  intro h
  have h2 : ("2024-01-01T00:00:00" : String) = "2024-01-01T00:00:01" :=
    congrArg AnalysisResult.analysis_timestamp h
  exact absurd h2 (by decide)

/-- Claim C1 as amended: `analyze_code` performs no input/output other than a
single wall-clock read recorded verbatim in `analysis_timestamp`; with the
timestamp field erased, two calls with the same code and filename agree in
every remaining field, whatever the two clock readings were. -/
theorem c1_analyze_deterministic_modulo_timestamp :
    ∀ code filename t1 t2 : String,
      clearTimestamp (analyze_code code filename t1) =
        clearTimestamp (analyze_code code filename t2) := by
  intro code filename t1 t2
  rfl

/-! ## Navigation codegen (claim C5) -/

/-- Claim C5: for a navigation step the Playwright generator renders the goto
call on the step's url followed by the network-idle wait whenever the url is
present and non-empty, renders the documented placeholder comment when the url
is absent, never produces an empty line, and a navigation step contained in
the parsed step list always contributes its rendered line to the generated
test (the `navigation` kind is registered in the dispatch table, so such a
step is never silently dropped). -/
theorem c5_navigation_codegen :
    ∀ step : Step,
      ((step.url).getD "" ≠ "" →
        _generate_navigation_step step =
          "  await page.goto(\x27" ++ (step.url).getD "" ++
            "\x27);\n  await page.waitForLoadState(\x27networkidle\x27);") ∧
      (step.url = none →
        _generate_navigation_step step = "  //Navigation step - URL not found") ∧
      ¬ _generate_navigation_step step = "" ∧
      (∀ steps : List Step, step ∈ steps → step.type_ = "navigation" →
        ("    " ++ _generate_navigation_step step ++ "\n") ∈ stepLines steps) := by
  intro step
  refine ⟨?_, ?_, ?_, ?_⟩
  · intro h
    simp only [_generate_navigation_step]
    rw [if_pos h]
  · intro h
    simp only [_generate_navigation_step, h]
    rfl
  · simp only [_generate_navigation_step]
    by_cases h : (step.url).getD "" ≠ ""
    · rw [if_pos h]
      intro heq
      have hlen := congrArg String.length heq
      rw [String.length_append, String.length_append] at hlen
      have h1 : ("  await page.goto(\x27" : String).length = 19 := by decide
      have h2 : ("\x27);\n  await page.waitForLoadState(\x27networkidle\x27);" : String).length
          = 49 := by decide
      have h3 : ("" : String).length = 0 := by decide
      rw [h1, h2, h3] at hlen
      omega
    · rw [if_neg h]
      decide
  · intro steps hmem htype
    rw [stepLines, List.mem_filterMap]
    refine ⟨step, hmem, ?_⟩
    rw [htype]
    rfl

/-- Witness for claim C5 at a concrete navigation step with a url, placed in a
one-element step list. -/
theorem c5_witness :
    _generate_navigation_step
        { type_ := "navigation", action := "cy.visit", selector := none, value := none,
          url := some "https://a.b", assertion_type := none, expected_value := none,
          line_number := 1, original_code := "cy.visit(\x27https://a.b\x27)" } =
      "  await page.goto(\x27https://a.b\x27);\n  await page.waitForLoadState(\x27networkidle\x27);" ∧
    ("    " ++ _generate_navigation_step
        { type_ := "navigation", action := "cy.visit", selector := none, value := none,
          url := some "https://a.b", assertion_type := none, expected_value := none,
          line_number := 1, original_code := "cy.visit(\x27https://a.b\x27)" } ++ "\n") ∈
      stepLines
        [{ type_ := "navigation", action := "cy.visit", selector := none, value := none,
           url := some "https://a.b", assertion_type := none, expected_value := none,
           line_number := 1, original_code := "cy.visit(\x27https://a.b\x27)" }] :=
  ⟨(c5_navigation_codegen _).1 (by decide),
   (c5_navigation_codegen _).2.2.2 _ (List.mem_singleton.mpr rfl) rfl⟩

/-! ## Event processing frame property (claim C10) -/

theorem updateFirst_length : ∀ (l : List AgentSt) (k st m : String),
    (updateFirst l k st m).length = l.length := by
  intro l
  induction l with
  | nil => intro k st m; rfl
  | cons a rest ih =>
    intro k st m
    rw [updateFirst]
    by_cases h : a.key = k
    · rw [if_pos h]
      rfl
    · rw [if_neg h, List.length_cons, List.length_cons, ih]

theorem updateFirst_changed : ∀ (l : List AgentSt) (k st m : String) (i : Nat),
    ¬ ((updateFirst l k st m)[i]? = l[i]?) →
    (∃ a, l[i]? = some a ∧ a.key = k ∧
      (updateFirst l k st m)[i]? = some { a with state := st, message := some m }) ∧
    (∀ (j : Nat) (b : AgentSt), j < i → l[j]? = some b → ¬ b.key = k) := by
  intro l
  induction l with
  | nil =>
    intro k st m i hch
    exact (hch (by rw [updateFirst])).elim
  | cons a rest ih =>
    intro k st m i hch
    rw [updateFirst] at hch
    by_cases h : a.key = k
    · rw [if_pos h] at hch
      cases i with
      | zero =>
        refine ⟨⟨a, List.getElem?_cons_zero, h, ?_⟩, fun j b hji => absurd hji (by omega)⟩
        rw [updateFirst, if_pos h, List.getElem?_cons_zero]
      | succ i' =>
        rw [List.getElem?_cons_succ, List.getElem?_cons_succ] at hch
        exact absurd rfl hch
    · rw [if_neg h] at hch
      cases i with
      | zero =>
        rw [List.getElem?_cons_zero, List.getElem?_cons_zero] at hch
        exact absurd rfl hch
      | succ i' =>
        rw [List.getElem?_cons_succ, List.getElem?_cons_succ] at hch
        have hr := ih k st m i' hch
        refine ⟨?_, ?_⟩
        · obtain ⟨b, hb, hbk, hb'⟩ := hr.1
          exact ⟨b, by rw [List.getElem?_cons_succ]; exact hb, hbk, by
            rw [updateFirst, if_neg h, List.getElem?_cons_succ]; exact hb'⟩
        · intro j b hji hjb
          cases j with
          | zero =>
            rw [List.getElem?_cons_zero] at hjb
            cases hjb
            exact h
          | succ j' =>
            rw [List.getElem?_cons_succ] at hjb
            exact hr.2 j' b (by omega) hjb

theorem dictGet?_dictInsert_self {α : Type} : ∀ (d : List (String × α)) (k : String) (v : α),
    dictGet? (dictInsert d k v) k = some v := by
  intro d
  induction d with
  | nil => intro k v; simp [dictInsert, dictGet?]
  | cons p rest ih =>
    intro k v
    rcases p with ⟨pk, pv⟩
    rw [dictInsert]
    by_cases h : pk = k
    · rw [if_pos h]
      show (if k = k then some v else dictGet? rest k) = some v
      rw [if_pos rfl]
    · rw [if_neg h]
      show (if pk = k then some pv else dictGet? (dictInsert rest k v) k) = some v
      rw [if_neg h]
      exact ih k v

theorem dictGet?_dictInsert_ne {α : Type} : ∀ (d : List (String × α)) (k k' : String) (v : α),
    ¬ k' = k → dictGet? (dictInsert d k v) k' = dictGet? d k' := by
  intro d
  induction d with
  | nil =>
    intro k k' v h
    show (if k = k' then some v else dictGet? [] k') = dictGet? [] k'
    rw [if_neg (fun hh : k = k' => h hh.symm)]
  | cons p rest ih =>
    intro k k' v h
    rcases p with ⟨pk, pv⟩
    rw [dictInsert]
    by_cases hp : pk = k
    · rw [if_pos hp]
      show (if k = k' then some v else dictGet? rest k') =
        (if pk = k' then some pv else dictGet? rest k')
      rw [if_neg (fun hh : k = k' => h hh.symm),
        if_neg (fun hh : pk = k' => h (hp ▸ hh).symm)]
    · rw [if_neg hp]
      show (if pk = k' then some pv else dictGet? (dictInsert rest k v) k') =
        (if pk = k' then some pv else dictGet? rest k')
      by_cases hp' : pk = k'
      · rw [if_pos hp', if_pos hp']
      · rw [if_neg hp', if_neg hp']
        exact ih k k' v h

/-- `_process_agent_event` written as one record update, by case analysis on
the event's optional fields. -/
theorem process_event_eq (run : RunV) (event : REvent) :
    _process_agent_event run event =
      { run with
        agents :=
          match event.agent, event.state with
          | some k, some st => updateFirst run.agents k st ((event.message).getD "")
          | _, _ => run.agents
        coverage :=
          match event.coverage with
          | some (.dict c) => some c
          | _ => run.coverage
        artifacts :=
          match event.artifact with
          | some a => dictInsert run.artifacts ((event.agent).getD "unknown") a
          | none => run.artifacts } := by
  rcases event with ⟨agent, state, message, coverage, artifact⟩
  rcases agent with _ | k <;> rcases state with _ | st <;> rcases artifact with _ | a <;>
    rcases coverage with _ | cv <;> first | rfl | (cases cv <;> rfl)

theorem process_event_agents (run : RunV) (event : REvent) :
    (_process_agent_event run event).agents =
      match event.agent, event.state with
      | some k, some st => updateFirst run.agents k st ((event.message).getD "")
      | _, _ => run.agents := by
  rw [process_event_eq]

theorem process_event_coverage (run : RunV) (event : REvent) :
    (_process_agent_event run event).coverage =
      match event.coverage with
      | some (.dict c) => some c
      | _ => run.coverage := by
  rw [process_event_eq]

theorem process_event_artifacts (run : RunV) (event : REvent) :
    (_process_agent_event run event).artifacts =
      match event.artifact with
      | some a => dictInsert run.artifacts ((event.agent).getD "unknown") a
      | none => run.artifacts := by
  rw [process_event_eq]

theorem process_event_agents_cases (run : RunV) (event : REvent) :
    (_process_agent_event run event).agents = run.agents ∨
    ∃ k st, event.agent = some k ∧ event.state = some st ∧
      (_process_agent_event run event).agents =
        updateFirst run.agents k st ((event.message).getD "") := by
  rw [process_event_agents]
  rcases event with ⟨agent, state, message, coverage, artifact⟩
  rcases agent with _ | k <;> rcases state with _ | st
  · exact Or.inl rfl
  · exact Or.inl rfl
  · exact Or.inl rfl
  · exact Or.inr ⟨k, st, rfl, rfl, rfl⟩

/-- Claim C10: `_process_agent_event` mutates at most the state and message of
the single agent whose key equals the event's `agent` field, the run's
coverage (only when the event carries a coverage dict), and the artifacts
entry for the event's agent key (defaulting to `"unknown"`, and only when the
event carries an artifact); `runId`, `status`, `errors`, `files`, every other
agent, every other artifact entry, and each agent's key and label are left
unchanged. -/
theorem c10_process_event_frame :
    ∀ (run : RunV) (event : REvent),
      ((_process_agent_event run event).runId = run.runId) ∧
      ((_process_agent_event run event).status = run.status) ∧
      ((_process_agent_event run event).errors = run.errors) ∧
      ((_process_agent_event run event).files = run.files) ∧
      (∀ c, event.coverage = some (CovVal.dict c) →
        (_process_agent_event run event).coverage = some c) ∧
      ((∀ c, ¬ event.coverage = some (CovVal.dict c)) →
        (_process_agent_event run event).coverage = run.coverage) ∧
      (event.artifact = none → (_process_agent_event run event).artifacts = run.artifacts) ∧
      (∀ k, ¬ k = (event.agent).getD "unknown" →
        dictGet? (_process_agent_event run event).artifacts k = dictGet? run.artifacts k) ∧
      (∀ a, event.artifact = some a →
        dictGet? (_process_agent_event run event).artifacts ((event.agent).getD "unknown") =
          some a) ∧
      (event.agent = none ∨ event.state = none →
        (_process_agent_event run event).agents = run.agents) ∧
      ((_process_agent_event run event).agents.length = run.agents.length) ∧
      (∀ i : Nat, ¬ ((_process_agent_event run event).agents[i]? = run.agents[i]?) →
        ∃ a st, run.agents[i]? = some a ∧ event.agent = some a.key ∧ event.state = some st ∧
          (_process_agent_event run event).agents[i]? =
            some { a with state := st, message := some ((event.message).getD "") }) ∧
      (∀ i j : Nat,
        ¬ ((_process_agent_event run event).agents[i]? = run.agents[i]?) →
        ¬ ((_process_agent_event run event).agents[j]? = run.agents[j]?) →
        i = j) := by
  intro run event
  refine ⟨?_, ?_, ?_, ?_, ?_, ?_, ?_, ?_, ?_, ?_, ?_, ?_, ?_⟩
  · rw [process_event_eq]
  · rw [process_event_eq]
  · rw [process_event_eq]
  · rw [process_event_eq]
  · intro c hc
    rw [process_event_coverage, hc]
  · intro hc
    rw [process_event_coverage]
    rcases h : event.coverage with _ | cv
    · rfl
    · cases cv with
      | dict c => exact absurd h (hc c)
      | nondict => rfl
  · intro ha
    rw [process_event_artifacts, ha]
  · intro k hk
    rw [process_event_artifacts]
    rcases h : event.artifact with _ | a
    · rfl
    · exact dictGet?_dictInsert_ne _ _ _ _ hk
  · intro a ha
    rw [process_event_artifacts, ha]
    exact dictGet?_dictInsert_self _ _ _
  · intro h
    rw [process_event_agents]
    rcases event with ⟨agent, state, message, coverage, artifact⟩
    rcases h with h | h <;> subst h
    · rfl
    · rcases agent with _ | k <;> rfl
  · rcases process_event_agents_cases run event with h | ⟨k, st, _, _, h⟩
    · rw [h]
    · rw [h, updateFirst_length]
  · intro i hch
    rcases process_event_agents_cases run event with h | ⟨k, st, hk, hst, h⟩
    · rw [h] at hch
      exact absurd rfl hch
    · rw [h] at hch
      have hc := updateFirst_changed run.agents k st ((event.message).getD "") i hch
      obtain ⟨a, ha, hak, ha'⟩ := hc.1
      exact ⟨a, st, ha, by rw [hk, hak], hst, by rw [h]; exact ha'⟩
  · intro i j hchi hchj
    rcases process_event_agents_cases run event with h | ⟨k, st, hk, hst, h⟩
    · rw [h] at hchi
      exact absurd rfl hchi
    · rw [h] at hchi hchj
      have hci := updateFirst_changed run.agents k st ((event.message).getD "") i hchi
      have hcj := updateFirst_changed run.agents k st ((event.message).getD "") j hchj
      obtain ⟨a, ha, hak, _⟩ := hci.1
      obtain ⟨b, hb, hbk, _⟩ := hcj.1
      rcases Nat.lt_trichotomy i j with hij | hij | hij
      · exact absurd hak (hcj.2 i a hij ha)
      · exact hij
      · exact absurd hbk (hci.2 j b hij hb)

/-- Witness for claim C10 at a concrete run and event: the event updates the
`gherkin` agent, carries a coverage dict and an artifact; status is unchanged,
the coverage is stored, the artifact lands under the `gherkin` key, and the
other artifact entry is untouched. -/
theorem c10_witness :
    (_process_agent_event
        { runId := "run-1", status := "running",
          agents := init_agents, coverage := none, files := [],
          artifacts := [("code_analysis", "old")], errors := [] }
        { agent := some "gherkin", state := some "success", message := some "done",
          coverage := some (CovVal.dict
            { overall_percentage := (875 : Rat) / 10, statements_percentage := (892 : Rat) / 10,
              functions_percentage := (857 : Rat) / 10, branches_percentage := (843 : Rat) / 10,
              coverage_collected := true, source := "simulated" }),
          artifact := some "gherkin report" }).status = "running" ∧
    (_process_agent_event
        { runId := "run-1", status := "running",
          agents := init_agents, coverage := none, files := [],
          artifacts := [("code_analysis", "old")], errors := [] }
        { agent := some "gherkin", state := some "success", message := some "done",
          coverage := some (CovVal.dict
            { overall_percentage := (875 : Rat) / 10, statements_percentage := (892 : Rat) / 10,
              functions_percentage := (857 : Rat) / 10, branches_percentage := (843 : Rat) / 10,
              coverage_collected := true, source := "simulated" }),
          artifact := some "gherkin report" }).coverage = some
            { overall_percentage := (875 : Rat) / 10, statements_percentage := (892 : Rat) / 10,
              functions_percentage := (857 : Rat) / 10, branches_percentage := (843 : Rat) / 10,
              coverage_collected := true, source := "simulated" } ∧
    dictGet? (_process_agent_event
        { runId := "run-1", status := "running",
          agents := init_agents, coverage := none, files := [],
          artifacts := [("code_analysis", "old")], errors := [] }
        { agent := some "gherkin", state := some "success", message := some "done",
          coverage := some (CovVal.dict
            { overall_percentage := (875 : Rat) / 10, statements_percentage := (892 : Rat) / 10,
              functions_percentage := (857 : Rat) / 10, branches_percentage := (843 : Rat) / 10,
              coverage_collected := true, source := "simulated" }),
          artifact := some "gherkin report" }).artifacts "gherkin" = some "gherkin report" ∧
    dictGet? (_process_agent_event
        { runId := "run-1", status := "running",
          agents := init_agents, coverage := none, files := [],
          artifacts := [("code_analysis", "old")], errors := [] }
        { agent := some "gherkin", state := some "success", message := some "done",
          coverage := some (CovVal.dict
            { overall_percentage := (875 : Rat) / 10, statements_percentage := (892 : Rat) / 10,
              functions_percentage := (857 : Rat) / 10, branches_percentage := (843 : Rat) / 10,
              coverage_collected := true, source := "simulated" }),
          artifact := some "gherkin report" }).artifacts "code_analysis" = some "old" :=
  ⟨(c10_process_event_frame _ _).2.1,
   (c10_process_event_frame _ _).2.2.2.2.1 _ rfl,
   (c10_process_event_frame _ _).2.2.2.2.2.2.2.2.1 _ rfl,
   (c10_process_event_frame _ _).2.2.2.2.2.2.2.1 _ (by decide)⟩

/-! ## Pipeline resilience (claim C4) -/

theorem run_agents_loop_errors_mono {α : Type} :
    ∀ (agents : List (String × (TAState α → Except String (α × String)))) (st : TAState α)
      (msg : String), msg ∈ st.errors → msg ∈ (run_agents_loop agents st).1.errors := by
  intro agents
  induction agents with
  | nil => intro st msg h; exact h
  | cons x rest ih =>
    intro st msg h
    rcases x with ⟨name, body⟩
    rw [run_agents_loop]
    refine ih _ msg ?_
    rw [run_agent]
    rcases body st with e | ⟨p, step⟩
    · exact List.mem_append_left _ h
    · exact h

/-- Running the loop over `pre ++ [always-failing stage] ++ post`: the failing
stage appends its message to the errors reached after `pre`, emits its
`running` and `error` updates between the surrounding stages' events, and
`post` still runs. -/
theorem run_agents_loop_fail_decomp {α : Type} :
    ∀ (pre : List (String × (TAState α → Except String (α × String))))
      (post : List (String × (TAState α → Except String (α × String))))
      (name e : String) (st : TAState α),
      run_agents_loop (pre ++ (name, fun _ => Except.error e) :: post) st =
        ((run_agents_loop post
            { (run_agents_loop pre st).1 with
              errors := (run_agents_loop pre st).1.errors ++ [name ++ " failed: " ++ e] }).1,
         (run_agents_loop pre st).2 ++
           (WEvent.workflow_progress name ::
             [WEvent.agent_update name "running" "",
              WEvent.agent_update name "error" (name ++ " failed: " ++ e)]) ++
           (run_agents_loop post
             { (run_agents_loop pre st).1 with
               errors := (run_agents_loop pre st).1.errors ++
                 [name ++ " failed: " ++ e] }).2) := by
  intro pre
  induction pre with
  | nil =>
    intro post name e st
    simp [run_agents_loop, run_agent]
  | cons x pre' ih =>
    intro post name e st
    rcases x with ⟨nm, body⟩
    rw [List.cons_append, run_agents_loop, run_agents_loop, ih]
    simp [List.append_assoc]

theorem run_agents_loop_progress {α : Type} :
    ∀ (agents : List (String × (TAState α → Except String (α × String)))) (st : TAState α),
      (run_agents_loop agents st).2.filterMap progress_agent? = agents.map Prod.fst := by
  intro agents
  induction agents with
  | nil => intro st; rfl
  | cons x rest ih =>
    intro st
    rcases x with ⟨name, body⟩
    rw [run_agents_loop]
    simp only [List.filterMap_append, List.filterMap_cons]
    rw [ih]
    have hagent : (run_agent name body st).2.filterMap progress_agent? = [] := by
      rw [run_agent]
      rcases body st with _ | e
      · rfl
      · rfl
    rw [hagent]
    rfl

/-- Claim C4: in the fixed eight-stage workflow, replacing any single stage's
body with one that always raises still lets the run progress through all
remaining stages: the failure message is captured into the state's `errors`
list, an `error` agent update is emitted for that stage, a progress event is
emitted for every one of the eight stages, and the final event is the
terminal `workflow_complete` carrying the accumulated errors. -/
theorem c4_pipeline_resilience :
    ∀ (α : Type) (pre post : List (String × (TAState α → Except String (α × String))))
      (name e : String) (st : TAState α),
      (pre ++ (name, fun _ => Except.error e) :: post).map Prod.fst = workflow_agent_names →
      ((name ++ " failed: " ++ e) ∈
          (process_workflow (pre ++ (name, fun _ => Except.error e) :: post) st).1.errors) ∧
      (WEvent.agent_update name "error" (name ++ " failed: " ++ e) ∈
          (process_workflow (pre ++ (name, fun _ => Except.error e) :: post) st).2) ∧
      ((process_workflow (pre ++ (name, fun _ => Except.error e) :: post) st).2.filterMap
          progress_agent? = workflow_agent_names) ∧
      ((process_workflow (pre ++ (name, fun _ => Except.error e) :: post) st).2.getLast? =
        some (WEvent.workflow_complete "completed"
          (process_workflow (pre ++ (name, fun _ => Except.error e) :: post) st).1.errors)) := by
  intro α pre post name e st hnames
  refine ⟨?_, ?_, ?_, ?_⟩
  · show (name ++ " failed: " ++ e) ∈
      (run_agents_loop (pre ++ (name, fun _ => Except.error e) :: post) st).1.errors
    rw [run_agents_loop_fail_decomp]
    exact run_agents_loop_errors_mono post _ _
      (List.mem_append_right _ (List.mem_singleton.mpr rfl))
  · show WEvent.agent_update name "error" (name ++ " failed: " ++ e) ∈
      (run_agents_loop (pre ++ (name, fun _ => Except.error e) :: post) st).2 ++
        [WEvent.workflow_complete "completed"
          (run_agents_loop (pre ++ (name, fun _ => Except.error e) :: post) st).1.errors]
    refine List.mem_append_left _ ?_
    rw [run_agents_loop_fail_decomp]
    refine List.mem_append_left _ (List.mem_append_right _ ?_)
    simp
  · show ((run_agents_loop (pre ++ (name, fun _ => Except.error e) :: post) st).2 ++
        [WEvent.workflow_complete "completed"
          (run_agents_loop (pre ++ (name, fun _ => Except.error e) :: post) st).1.errors]).filterMap
        progress_agent? = workflow_agent_names
    rw [List.filterMap_append, run_agents_loop_progress, hnames]
    rfl
  · exact List.getLast?_concat _

/-- Witness for claim C4: a concrete eight-stage workflow over payload `Nat`
in which the `gherkin` stage always raises `boom`; the run captures the error,
emits the error update, attempts all eight stages, and ends with the terminal
completion event. -/
theorem c4_witness :
    (("gherkin failed: boom") ∈
        (process_workflow
          ([("code_analysis", fun stt => Except.ok (stt.payload, "code_analyzed")),
            ("user_story", fun stt => Except.ok (stt.payload, "user_story_generated"))] ++
            ("gherkin", fun _ => Except.error "boom") ::
            [("test_plan", fun stt => Except.ok (stt.payload, "test_plan_generated")),
             ("playwright", fun stt => Except.ok (stt.payload, "playwright_generated")),
             ("execution", fun stt => Except.ok (stt.payload, "execution_completed")),
             ("coverage", fun stt => Except.ok (stt.payload, "coverage_generated")),
             ("final_report", fun stt => Except.ok (stt.payload, "completed"))])
          { errors := [], current_step := "initialized", payload := (0 : Nat) }).1.errors) ∧
    ((process_workflow
          ([("code_analysis", fun stt => Except.ok (stt.payload, "code_analyzed")),
            ("user_story", fun stt => Except.ok (stt.payload, "user_story_generated"))] ++
            ("gherkin", fun _ => Except.error "boom") ::
            [("test_plan", fun stt => Except.ok (stt.payload, "test_plan_generated")),
             ("playwright", fun stt => Except.ok (stt.payload, "playwright_generated")),
             ("execution", fun stt => Except.ok (stt.payload, "execution_completed")),
             ("coverage", fun stt => Except.ok (stt.payload, "coverage_generated")),
             ("final_report", fun stt => Except.ok (stt.payload, "completed"))])
          { errors := [], current_step := "initialized", payload := (0 : Nat) }).2.filterMap
        progress_agent? = workflow_agent_names) :=
  ⟨(c4_pipeline_resilience Nat _ _ "gherkin" "boom" _ (by rfl)).1,
   (c4_pipeline_resilience Nat _ _ "gherkin" "boom" _ (by rfl)).2.2.1⟩

/-! ## Cancellation (claim C8) -/

/-- Claim C8 is contradicted by the code: `RunManager.run_tasks` is never
written anywhere in `runner.py` (or `main.py`), so `cancel_run` — which
returns `True` only when `run_id in self.run_tasks` — returns `False` for
every run, including a freshly started, non-terminal run registered by
`start_run`, and leaves the manager unchanged.  The positive path (mark
`failed`, record the reason) is dead code for thread-based runs. -/
theorem c8_cancel_run_dead :
    ((cancel_run (start_run init_manager "run-1") "run-1").2 = false) ∧
    ((cancel_run (start_run init_manager "run-1") "run-1").1 = start_run init_manager "run-1") ∧
    ((dictGet? (start_run init_manager "run-1").active_runs "run-1").map RunV.status =
      some "queued") ∧
    (∀ (m : RunManagerSt) (run_id : String),
      (cancel_run m run_id).2 = m.run_tasks.contains run_id) ∧
    (∀ (m : RunManagerSt) (run_id : String), (start_run m run_id).run_tasks = m.run_tasks) := by
  refine ⟨by decide, by decide, by decide, ?_, fun m run_id => rfl⟩
  intro m run_id
  rw [cancel_run]
  by_cases h : m.run_tasks.contains run_id = true
  · rw [if_pos h, h]
  · have hf : m.run_tasks.contains run_id = false := Bool.eq_false_iff.mpr h
    rw [if_neg h, hf]

end QA
